import Mathlib

/-!
# Verification of the DairyTest reconciliation and completeness-audit engine

Shallow embedding of the core logic of `src/main.py` (a Streamlit dashboard
for a small dairy operation).  Tabular cells are modelled after the relevant
pandas coercions: a parsed date is an optional value (`none` = `NaT`), a
numerically coerced cell is `Option Rat` (`none` = `NaN`, which pandas sums
skip), a raw text cell is `Option String` (`none` = a missing cell).  Column
role resolution, which depends only on the raw header names, is abstracted
by `Bool` parameters saying whether the role column was resolved.  Floating
point is idealised as exact rational arithmetic.
-/

namespace Dairy

/-! ## String primitives (models of the Python str operations used) -/

/-- The whitespace characters removed by Python str.strip. -/
def isSpaceChar (c : Char) : Bool :=
  c == ' ' || c == '\t' || c == '\n' || c == '\r' || c == '\x0b' || c == '\x0c'

/-- Python str.strip on a character list: drop whitespace at both ends. -/
def stripChars (l : List Char) : List Char :=
  ((l.dropWhile isSpaceChar).reverse.dropWhile isSpaceChar).reverse

/-- Model of Python str.strip(). -/
def strip (s : String) : String := ⟨stripChars s.data⟩

/-- Model of Python str.lower() (ASCII letters; the Devanagari tokens used in
the source are unaffected by lowercasing). -/
def lower (s : String) : String := ⟨s.data.map Char.toLower⟩

/-- Model of the Python containment test `pat in s`: substring containment. -/
def strContains (s pat : String) : Bool := decide (pat.data <:+: s.data)

/-- Model of Python `" ".join(vals)`. -/
def joinSp : List String → String
  | [] => ""
  | [v] => v
  | v :: w :: vs => v ++ " " ++ joinSp (w :: vs)

theorem dropWhile_idem (p : Char → Bool) (l : List Char) :
    (l.dropWhile p).dropWhile p = l.dropWhile p := by
  induction l with
  | nil => rfl
  | cons a t ih =>
    by_cases h : p a
    · rw [List.dropWhile_cons_of_pos h, ih]
    · simp only [Bool.not_eq_true] at h
      rw [List.dropWhile_cons_of_neg (by simp [h]), List.dropWhile_cons_of_neg (by simp [h])]

theorem head_false_of_dropWhile_eq_self (p : Char → Bool) (a : Char) (t : List Char)
    (h : (a :: t).dropWhile p = a :: t) : p a = false := by
  by_contra hpa
  simp only [Bool.not_eq_false] at hpa
  rw [List.dropWhile_cons_of_pos hpa] at h
  have hle := (List.dropWhile_sublist (l := t) p).length_le
  rw [h] at hle
  simp at hle

theorem dropWhile_back_strip (p : Char → Bool) (m : List Char)
    (hmfix : m.dropWhile p = m) :
    ((m.reverse.dropWhile p).reverse).dropWhile p = (m.reverse.dropWhile p).reverse := by
  have hpre : (m.reverse.dropWhile p).reverse <+: m := by
    apply List.reverse_suffix.mp
    rw [List.reverse_reverse]
    exact List.dropWhile_suffix p
  rcases hcase : (m.reverse.dropWhile p).reverse with _ | ⟨a, t⟩
  · rfl
  · rw [hcase] at hpre
    obtain ⟨u, hu⟩ := hpre
    have hm : m = a :: (t ++ u) := by rw [← hu]; simp
    have hpa : p a = false := by
      apply head_false_of_dropWhile_eq_self p a (t ++ u)
      rw [← hm]
      exact hmfix
    rw [List.dropWhile_cons_of_neg (by simp [hpa])]

theorem dropWhile_stripChars (l : List Char) :
    (stripChars l).dropWhile isSpaceChar = stripChars l :=
  dropWhile_back_strip isSpaceChar (l.dropWhile isSpaceChar) (dropWhile_idem isSpaceChar l)

theorem stripChars_idem (l : List Char) : stripChars (stripChars l) = stripChars l := by
  have h1 : (stripChars l).dropWhile isSpaceChar = stripChars l := dropWhile_stripChars l
  have h2 : (stripChars l).reverse.dropWhile isSpaceChar = (stripChars l).reverse := by
    unfold stripChars
    rw [List.reverse_reverse]
    exact dropWhile_idem isSpaceChar _
  show (((stripChars l).dropWhile isSpaceChar).reverse.dropWhile isSpaceChar).reverse
      = stripChars l
  rw [h1, h2, List.reverse_reverse]

theorem strip_idem (s : String) : strip (strip s) = strip s := by
  unfold strip
  exact congrArg String.mk (stripChars_idem s.data)

/-- A space-free nonempty pattern occurs in `a ++ space :: b` exactly when it
occurs in `a` or in `b`. -/
theorem infix_append_space {k a b : List Char} (hk : k ≠ []) (hsp : ' ' ∉ k) :
    k <:+: a ++ ' ' :: b ↔ k <:+: a ∨ k <:+: b := by
  constructor
  · rintro ⟨s, t, h⟩
    have h' : s ++ (k ++ t) = a ++ (' ' :: b) := by simpa [List.append_assoc] using h
    rcases List.append_eq_append_iff.mp h' with ⟨w, hc, hb⟩ | ⟨w, hs2, hd⟩
    · rcases List.append_eq_append_iff.mp hb with ⟨u, hw, _⟩ | ⟨u, hk2, hd⟩
      · left
        exact ⟨s, u, by rw [hc, hw]; simp [List.append_assoc]⟩
      · match u, hd with
        | [], hd =>
          left
          simp only [List.append_nil] at hk2
          exact ⟨s, [], by rw [hc, hk2]; simp⟩
        | c :: u', hd =>
          exfalso
          have hc' : c = ' ' := (List.cons.injEq _ _ _ _ ▸ hd.symm).1
          exact hsp (by rw [hk2, hc']; simp)
    · match w, hd with
      | [], hd =>
        exfalso
        simp only [List.nil_append] at hd
        match k, hk with
        | c :: k', _ =>
          have hc' : ' ' = c := (List.cons.injEq _ _ _ _ ▸ hd).1
          exact hsp (by rw [← hc']; simp)
      | c :: w', hd =>
        right
        have hb' : b = w' ++ (k ++ t) := (List.cons.injEq _ _ _ _ ▸ hd).2
        exact ⟨w', t, by rw [hb']; simp [List.append_assoc]⟩
  · rintro (⟨s, t, rfl⟩ | ⟨s, t, rfl⟩)
    · exact ⟨s, t ++ ' ' :: b, by simp⟩
    · exact ⟨a ++ ' ' :: s, t, by simp⟩

theorem strContains_joinSp (k : String) (hk : k.data ≠ []) (hsp : ' ' ∉ k.data) :
    ∀ vals : List String,
      strContains (joinSp vals) k = true ↔ ∃ v ∈ vals, strContains v k = true
  | [] => by
    simp only [joinSp, strContains, decide_eq_true_eq, List.not_mem_nil]
    constructor
    · intro h
      exact absurd (List.eq_nil_of_infix_nil h) hk
    · rintro ⟨v, hv, _⟩
      exact absurd hv (by simp)
  | [v] => by simp [joinSp]
  | v :: w :: vs => by
    have ih := strContains_joinSp k hk hsp (w :: vs)
    have hdata : (v ++ " " ++ joinSp (w :: vs)).data
        = v.data ++ ' ' :: (joinSp (w :: vs)).data := by
      show (v.data ++ [' ']) ++ (joinSp (w :: vs)).data = _
      simp
    constructor
    · intro h
      have hinf : k.data <:+: v.data ++ ' ' :: (joinSp (w :: vs)).data := by
        have := of_decide_eq_true h
        rwa [joinSp, hdata] at this
      rcases (infix_append_space hk hsp).mp hinf with h1 | h1
      · exact ⟨v, by simp, decide_eq_true h1⟩
      · obtain ⟨v', hv', hc⟩ := ih.mp (decide_eq_true h1)
        exact ⟨v', by simp [hv'], hc⟩
    · rintro ⟨v', hv', hc⟩
      rw [joinSp]
      show decide (k.data <:+: (v ++ " " ++ joinSp (w :: vs)).data) = true
      rw [hdata]
      apply decide_eq_true
      apply (infix_append_space hk hsp).mpr
      rcases List.mem_cons.mp hv' with rfl | hv'
      · exact Or.inl (of_decide_eq_true hc)
      · exact Or.inr (of_decide_eq_true (ih.mpr ⟨v', hv', hc⟩))

/-! ## Calendar dates -/

/-- A calendar date (year, month, day) as produced by a successful
pd.to_datetime parse, at day granularity (the dashboard always compares
normalized timestamps). -/
structure CalDate where
  year : Nat
  month : Nat
  day : Nat
deriving DecidableEq, Repr

/-- Day number of a Gregorian date (the standard civil-from-days algorithm,
valid for year ≥ 1; only differences and order of day numbers matter here). -/
def dayNum (y m d : Nat) : Nat :=
  let y2 := if m ≤ 2 then y - 1 else y
  let era := y2 / 400
  let yoe := y2 % 400
  let mp := (m + 9) % 12
  let doy := (153 * mp + 2) / 5 + (d - 1)
  let doe := yoe * 365 + yoe / 4 - yoe / 100 + doy
  era * 146097 + doe

/-- Day number of a calendar date. -/
def CalDate.num (a : CalDate) : Nat := dayNum a.year a.month a.day

/-- pd.Timestamp("2025-11-01"): the validation start used by the dashboard
(called START_DATE at line 127 and VALIDATION_START at line 351). -/
def START_DATE : CalDate := ⟨2025, 11, 1⟩

/-! ## Aggregator: sum_numeric_columns (src/main.py lines 46-54) -/

/-- One dataframe row as seen by sum_numeric_columns: each column name paired
with the result of coercing its cell with pd.to_numeric(errors="coerce")
(`none` = NaN; pandas sums skip NaN, so such a cell contributes 0). -/
def NumRow : Type := List (String × Option Rat)

/-- Lines 46-54: sum every column not listed in exclude_cols, coercing cell
by cell, and return 0 for an empty dataframe. -/
def sum_numeric_columns (rows : List NumRow) (exclude_cols : List String) : Rat :=
  if rows.isEmpty then 0
  else (rows.map (fun r =>
    ((r.filter (fun cv => !exclude_cols.contains cv.1)).map (fun cv => cv.2.getD 0)).sum)).sum

/-- Spec-side formulation of the same quantity: the exact arithmetic sum of
the successfully coerced cells of the non-excluded columns, a non-numeric
cell contributing 0, with no special case for an empty dataset. -/
def specSumAllNumeric (rows : List NumRow) (excluded : List String) : Rat :=
  (rows.map (fun r =>
    (r.map (fun cv => if excluded.contains cv.1 then 0 else cv.2.getD 0)).sum)).sum

/-! ## Dashboard data preparation and summaries (lines 127-290) -/

/-- A cow-log row as the dashboard sees it: the parse result of the Date
cell and the numeric coercion of the resolved milk-column cell. -/
structure ProdRow where
  date : Option CalDate
  milk : Option Rat
deriving DecidableEq, Repr

/-- A distribution-channel row: the parse result of the Date cell plus every
column with its numeric coercion (the Date cell itself coerces to `none`). -/
structure DistRow where
  date : Option CalDate
  cells : NumRow

/-- Lines 136-140: for each dataframe, Date is parsed with errors="coerce"
and rows with unparseable dates are dropped in place; the final statement
of the loop body rebinds the loop variable df to the filtered frame, so the
start-date filter `df["Date"] >= START_DATE` has no effect on the outer
dataframes used by the summaries below. -/
def dropUnparsedProd (rows : List ProdRow) : List ProdRow :=
  rows.filter (fun r => r.date.isSome)

/-- Same in-place preparation for a distribution dataframe. -/
def dropUnparsedDist (rows : List DistRow) : List DistRow :=
  rows.filter (fun r => r.date.isSome)

/-- Line 146: coerced sum of the resolved milk column, 0 when no milk column
was resolved. -/
def total_milk_produced (milkCol : Bool) (rows : List ProdRow) : Rat :=
  if milkCol then (rows.map (fun r => r.milk.getD 0)).sum else 0

/-- Lifetime produced total as the dashboard computes it (lines 136-146). -/
def dash_total_milk_produced (milkCol : Bool) (raw : List ProdRow) : Rat :=
  total_milk_produced milkCol (dropUnparsedProd raw)

/-- Lines 148-150: morning plus evening channel totals. -/
def dash_total_milk_distributed (mRaw eRaw : List DistRow) : Rat :=
  sum_numeric_columns ((dropUnparsedDist mRaw).map (fun r => r.cells)) ["Timestamp", "Date"] +
  sum_numeric_columns ((dropUnparsedDist eRaw).map (fun r => r.cells)) ["Timestamp", "Date"]

/-- Line 151: remaining milk, a plain signed subtraction. -/
def dash_remaining_milk (milkCol : Bool) (raw : List ProdRow) (mRaw eRaw : List DistRow) : Rat :=
  dash_total_milk_produced milkCol raw - dash_total_milk_distributed mRaw eRaw

/-- Lines 264-267: filter_month keeps the rows whose parsed date has the
current month number; the year is not inspected (a NaT date never has the
month number, matching pandas where NaT.month is NaN). -/
def filter_month {α : Type} (todayMonth : Nat) (getDate : α → Option CalDate)
    (rows : List α) : List α :=
  rows.filter (fun r =>
    match getDate r with
    | some dt => dt.month == todayMonth
    | none => false)

/-- Lines 272, 275-276: produced total over the current-month filter. -/
def dash_milk_month (milkCol : Bool) (raw : List ProdRow) (todayMonth : Nat) : Rat :=
  total_milk_produced milkCol
    (filter_month todayMonth (fun r => r.date) (dropUnparsedProd raw))

/-- Lines 270-271, 277-279: distributed total over the current-month filter. -/
def dash_milk_distributed_month (mRaw eRaw : List DistRow) (todayMonth : Nat) : Rat :=
  sum_numeric_columns
    ((filter_month todayMonth (fun r => r.date) (dropUnparsedDist mRaw)).map (fun r => r.cells))
    ["Timestamp", "Date"] +
  sum_numeric_columns
    ((filter_month todayMonth (fun r => r.date) (dropUnparsedDist eRaw)).map (fun r => r.cells))
    ["Timestamp", "Date"]

/-- Line 280: current-month remaining milk, again a plain subtraction. -/
def dash_remaining_milk_month (milkCol : Bool) (raw : List ProdRow)
    (mRaw eRaw : List DistRow) (todayMonth : Nat) : Rat :=
  dash_milk_month milkCol raw todayMonth - dash_milk_distributed_month mRaw eRaw todayMonth

/-! ## Named-party fund (lines 157-172) -/

/-- A ledger row: the party column cell (Paid To / Received By / Expense By)
and the Amount cell. -/
structure LedgerRow where
  party : Option String
  amount : Option Rat
deriving DecidableEq, Repr

/-- Lines 157-161: the pandas test `df["Paid To"] == "Bipin Kumar"` is exact
equality on the raw cell (a NaN cell compares unequal); 0 when the column is
absent. -/
def investment_bipin (paidToCol : Bool) (rows : List LedgerRow) : Rat :=
  if paidToCol then
    ((rows.filter (fun r => r.party == some "Bipin Kumar")).map
      (fun r => r.amount.getD 0)).sum
  else 0

/-- Lines 162-166. -/
def received_bipin (receivedByCol : Bool) (rows : List LedgerRow) : Rat :=
  if receivedByCol then
    ((rows.filter (fun r => r.party == some "Bipin Kumar")).map
      (fun r => r.amount.getD 0)).sum
  else 0

/-- Lines 167-171. -/
def expense_bipin (expenseByCol : Bool) (rows : List LedgerRow) : Rat :=
  if expenseByCol then
    ((rows.filter (fun r => r.party == some "Bipin Kumar")).map
      (fun r => r.amount.getD 0)).sum
  else 0

/-- Line 172. -/
def fund_bipin (pc rc ec : Bool) (inv pay expn : List LedgerRow) : Rat :=
  investment_bipin pc inv + received_bipin rc pay - expense_bipin ec expn

/-- Modelled from the spec: party matching as the spec words it,
case-insensitive substring containment of the party name in the trimmed
field value. -/
def specPartyMatches (cell : Option String) (name : String) : Bool :=
  match cell with
  | none => false
  | some s => strContains (lower (strip s)) (lower name)

/-- Modelled from the spec: the fund formula with the spec-side matcher. -/
def specFund (inv pay expn : List LedgerRow) (name : String) : Rat :=
  ((inv.filter (fun r => specPartyMatches r.party name)).map (fun r => r.amount.getD 0)).sum +
  ((pay.filter (fun r => specPartyMatches r.party name)).map (fun r => r.amount.getD 0)).sum -
  ((expn.filter (fun r => specPartyMatches r.party name)).map (fun r => r.amount.getD 0)).sum

/-- Sum of the Amount cells of the rows whose party cell equals the given
name exactly (the matching the code actually performs). -/
def exactPartySum (rows : List LedgerRow) (name : String) : Rat :=
  (rows.map (fun r => if r.party == some name then r.amount.getD 0 else 0)).sum

/-! ## Latest Summary (lines 192-207) -/

/-- Comparison used by sort_values("Date", ascending=False): later dates
first, NaT dates last (na_position="last"); the particular sort algorithm is
irrelevant to the claims. -/
def laterDate (r1 r2 : ProdRow) : Bool :=
  match r1.date, r2.date with
  | some a, some b => b.num ≤ a.num
  | some _, none => true
  | none, some _ => false
  | none, none => true

/-- Insertion step of the descending-by-date sort. -/
def insertDesc (r : ProdRow) : List ProdRow → List ProdRow
  | [] => [r]
  | x :: xs => if laterDate r x then r :: x :: xs else x :: insertDesc r xs

/-- Model of df_cow_log.sort_values("Date", ascending=False). -/
def sortByDateDesc : List ProdRow → List ProdRow
  | [] => []
  | r :: rs => insertDesc r (sortByDateDesc rs)

/-- Positional indexing .iloc[i]: raises IndexError when the position does
not exist (modelled as an Except error). -/
def iloc (rows : List ProdRow) (i : Nat) : Except String ProdRow :=
  match rows[i]? with
  | some r => Except.ok r
  | none => Except.error "single positional indexer is out-of-bounds"

/-- Lines 192-201: df_sorted_prod = sorted cow log, head(2), then the two
unconditional positional reads latest_prod_1 = .iloc[0] and
latest_prod_2 = .iloc[1]. -/
def latest_two_prod (rows : List ProdRow) : Except String (ProdRow × ProdRow) :=
  let sorted := (sortByDateDesc rows).take 2
  (iloc sorted 0).bind (fun r1 => (iloc sorted 1).bind (fun r2 => Except.ok (r1, r2)))

/-! ## Completeness auditor (lines 397-524)

The auditor re-parses the Date columns with dayfirst=True, errors="coerce"
(line 410) and compares normalized timestamps throughout, so a date is
modelled as a day number (`Option Nat`, `none` = NaT).  Whether a shift or
cow-id column was detected (lines 413-425) is passed as a Bool. -/

/-- A cow-log row as the auditor sees it: the re-parsed date, the raw cow-id
cell (`none` = NaN) and the raw shift cell. -/
structure CowRow where
  date : Option Nat
  cowid : Option String
  shift : Option String
deriving DecidableEq, Repr

/-- A distribution-channel row as the auditor sees it. -/
structure ChanRow where
  date : Option Nat
deriving DecidableEq, Repr

/-- A gap descriptor; the url and gradient presentation fields are omitted.
cowid is `none` for the channel-day ("distribution") cards. -/
structure Gap where
  kind : String
  cowid : Option String
  date : Nat
  shift : String
deriving DecidableEq, Repr

/-- pandas astype(str) renders a missing cell as the text "nan". -/
def cellStr : Option String → String
  | none => "nan"
  | some s => s

/-- Line 439. -/
def morningKeywords : List String := ["morning", "mor", "सुबह", "भोर", "am"]

/-- Line 441. -/
def eveningKeywords : List String := ["evening", "eve", "शाम", "pm", "even"]

/-- Line 431: the local `mask` of has_shift_on_date_for_cow — the rows with
the wanted normalized date and trimmed cow id. -/
def maskRows (rows : List CowRow) (date : Nat) (cowid : String) : List CowRow :=
  rows.filter (fun r =>
    r.date == some date && strip (cellStr r.cowid) == strip cowid)

/-- Line 434: the local `vals` — the shift cells of the masked rows, missing
cells dropped, lowercased and trimmed. -/
def shiftVals (rows : List CowRow) (date : Nat) (cowid : String) : List String :=
  ((maskRows rows date cowid).filterMap (fun r => r.shift)).map (fun v => strip (lower v))

/-- Lines 428-441: presence check for one cow, one day and one shift.  The
matching rows are selected by date equality and trimmed cow-id equality,
their shift cells are lowercased, trimmed and joined with spaces, and the
joined text is searched for the shift keywords. -/
def has_shift_on_date_for_cow (rows : List CowRow) (shiftCol cowCol : Bool)
    (date : Nat) (cowid : String) (shiftName : String) : Bool :=
  if rows.isEmpty || !shiftCol || !cowCol then false
  else if (maskRows rows date cowid).isEmpty then false
  else if (shiftVals rows date cowid).isEmpty then false
  else if lower shiftName == "morning" then
    morningKeywords.any (fun k => strContains (joinSp (shiftVals rows date cowid)) k)
  else
    eveningKeywords.any (fun k => strContains (joinSp (shiftVals rows date cowid)) k)

/-- Lines 443-446: channel presence check for one day. -/
def has_any_on_date (rows : List ChanRow) (dateCol : Bool) (d : Nat) : Bool :=
  if rows.isEmpty || !dateCol then false
  else rows.any (fun r => r.date == some d)

/-- First-occurrence deduplication with a seen accumulator. -/
def uniqueFirstAux (seen : List String) : List String → List String
  | [] => []
  | x :: xs =>
    if seen.contains x then uniqueFirstAux seen xs
    else x :: uniqueFirstAux (x :: seen) xs

/-- First-occurrence deduplication, as pandas Series.unique. -/
def uniqueFirst (l : List String) : List String := uniqueFirstAux [] l

/-- Line 452: the distinct trimmed cow ids, in first-encounter order
(missing cells dropped first). -/
def cow_ids (rows : List CowRow) : List String :=
  uniqueFirst ((rows.filterMap (fun r => r.cowid)).map strip)

/-- pandas Series.min over the parsed dates: NaT values are skipped and the
result is NaT (`none`) when nothing parsed. -/
def minDate (l : List Nat) : Option Nat :=
  l.foldl (fun acc d =>
    match acc with
    | none => some d
    | some x => some (min x d)) none

/-- Line 454: the rows of one cow, matched by trimmed string equality. -/
def cow_rows (rows : List CowRow) (cowid : String) : List CowRow :=
  rows.filter (fun r => strip (cellStr r.cowid) == strip cowid)

/-- Lines 457-458: cow_start = max(VALIDATION_START, first recorded date).
In pandas, max(ts, NaT) = ts because NaT > ts is False, so a cow all of
whose dates failed to parse starts at VALIDATION_START. -/
def cow_start (rows : List CowRow) (VS : Nat) (cowid : String) : Nat :=
  match minDate ((cow_rows rows cowid).filterMap (fun r => r.date)) with
  | none => VS
  | some f => max VS f

/-- pd.date_range(start, end, freq="D"): the days from a to b inclusive
(empty when b < a). -/
def dateRange (a b : Nat) : List Nat := (List.range (b + 1 - a)).map (a + ·)

/-- Lines 455-492: the per-cow day loop — skip the cow when it has no rows
or no Date column or starts after today, else emit a Morning then an Evening
card for every unsatisfied day/shift, days ascending. -/
def cowGaps (rows : List CowRow) (dateCol shiftCol : Bool) (VS today : Nat)
    (cowid : String) : List Gap :=
  if (cow_rows rows cowid).isEmpty || !dateCol then []
  else if today < cow_start rows VS cowid then []
  else
    (dateRange (cow_start rows VS cowid) today).flatMap (fun d =>
        (if has_shift_on_date_for_cow rows shiftCol true d cowid "Morning" then []
         else [⟨"milking", some cowid, d, "Morning"⟩]) ++
        (if has_shift_on_date_for_cow rows shiftCol true d cowid "Evening" then []
         else [⟨"milking", some cowid, d, "Evening"⟩]))

/-- Lines 493-502: the fallback loop used when no cow-id column was resolved
or the cow log is empty — the same presence check with an empty cow id. -/
def fallbackGaps (rows : List CowRow) (shiftCol cowCol : Bool) (VS today : Nat) : List Gap :=
  (dateRange VS today).flatMap (fun d =>
    (if has_shift_on_date_for_cow rows shiftCol cowCol d "" "Morning" then []
     else [⟨"milking", some "", d, "Morning"⟩]) ++
    (if has_shift_on_date_for_cow rows shiftCol cowCol d "" "Evening" then []
     else [⟨"milking", some "", d, "Evening"⟩]))

/-- Lines 505-524: the channel-day loop — for each day in the window, the
morning channel is checked and then the evening channel. -/
def distGaps (milk_m milk_e : List ChanRow) (dateColM dateColE : Bool)
    (VS today : Nat) : List Gap :=
  (dateRange VS today).flatMap (fun d =>
    (if has_any_on_date milk_m dateColM d then []
     else [⟨"distribution", none, d, "Morning"⟩]) ++
    (if has_any_on_date milk_e dateColE d then []
     else [⟨"distribution", none, d, "Evening"⟩]))

/-- Lines 448-524: the full ordered card list missing_cards — the per-cow
section (or its fallback) followed by the channel section. -/
def missing_cards (cow_log : List CowRow) (dateCol shiftCol cowCol : Bool)
    (milk_m milk_e : List ChanRow) (dateColM dateColE : Bool)
    (VS today : Nat) : List Gap :=
  (if cowCol && !cow_log.isEmpty then
    (cow_ids cow_log).flatMap (cowGaps cow_log dateCol shiftCol VS today)
  else fallbackGaps cow_log shiftCol cowCol VS today)
  ++ distGaps milk_m milk_e dateColM dateColE VS today

/-- Line 438 and 441 keyword selection, shared with the spec-side predicate. -/
def shiftKeywords (shiftName : String) : List String :=
  if lower shiftName == "morning" then morningKeywords else eveningKeywords

/-- Spec-side satisfaction predicate: a day/shift is satisfied iff some row
matches the entity and the date and its shift-field value contains one of
the recognized keywords of that shift. -/
def specSatisfied (rows : List CowRow) (d : Nat) (cowid shiftName : String) : Bool :=
  rows.any (fun r =>
    r.date == some d && strip (cellStr r.cowid) == strip cowid &&
      (match r.shift with
       | some s => (shiftKeywords shiftName).any (fun k => strContains (strip (lower s)) k)
       | none => false))

/-- Ordering on gap descriptors: earlier date first, Morning before Evening
on the same date. -/
def gapOrder (g1 g2 : Gap) : Prop :=
  g1.date < g2.date ∨ (g1.date = g2.date ∧ g1.shift = "Morning" ∧ g2.shift = "Evening")

/-! ## Helper lemmas -/

theorem sum_filter_map_eq {α : Type} (p : α → Bool) (f : α → Rat) (l : List α) :
    ((l.filter p).map f).sum = (l.map (fun a => if p a then f a else 0)).sum := by
  induction l with
  | nil => rfl
  | cons a t ih =>
    cases h : p a <;> simp [List.filter_cons, h, ih]

theorem shiftKeywords_sound (sn : String) :
    ∀ k ∈ shiftKeywords sn, k.data ≠ [] ∧ ' ' ∉ k.data := by
  unfold shiftKeywords
  split
  · decide
  · decide

theorem shiftVals_of_maskRows_eq_nil (rows : List CowRow) (d : Nat) (cowid : String)
    (h : maskRows rows d cowid = []) : shiftVals rows d cowid = [] := by
  unfold shiftVals
  rw [h]
  rfl

/-- The presence check of lines 428-441 (when both role columns resolved)
agrees with the spec-side satisfaction predicate: the keyword search over the
space-joined shift values finds a keyword exactly when some matching row has
a shift value containing it, because no keyword contains a space. -/
theorem has_shift_eq_spec (rows : List CowRow) (d : Nat) (cowid shiftName : String) :
    has_shift_on_date_for_cow rows true true d cowid shiftName
      = specSatisfied rows d cowid shiftName := by
  have hspec : specSatisfied rows d cowid shiftName = true ↔
      ∃ r ∈ rows,
        (r.date == some d && strip (cellStr r.cowid) == strip cowid) = true ∧
        ∃ s, r.shift = some s ∧
          ∃ k ∈ shiftKeywords shiftName, strContains (strip (lower s)) k = true := by
    unfold specSatisfied
    rw [List.any_eq_true]
    constructor
    · rintro ⟨r, hr, hp⟩
      simp only [Bool.and_eq_true] at hp
      obtain ⟨⟨hp1, hp2⟩, hm⟩ := hp
      rcases hs : r.shift with _ | s
      · rw [hs] at hm
        simp at hm
      · rw [hs] at hm
        rw [List.any_eq_true] at hm
        obtain ⟨k, hk, hck⟩ := hm
        exact ⟨r, hr, by simp [hp1, hp2], s, hs, k, hk, hck⟩
    · rintro ⟨r, hr, hpred, s, hshift, k, hk, hck⟩
      refine ⟨r, hr, ?_⟩
      simp only [Bool.and_eq_true] at hpred ⊢
      refine ⟨hpred, ?_⟩
      rw [hshift, List.any_eq_true]
      exact ⟨k, hk, hck⟩
  have hlhs : has_shift_on_date_for_cow rows true true d cowid shiftName = true ↔
      ∃ k ∈ shiftKeywords shiftName,
        ∃ v ∈ shiftVals rows d cowid, strContains v k = true := by
    unfold has_shift_on_date_for_cow
    simp only [Bool.not_true, Bool.or_false]
    cases hrows : rows.isEmpty
    · simp only [Bool.false_eq_true, if_false]
      cases hm : (maskRows rows d cowid).isEmpty
      · simp only [Bool.false_eq_true, if_false]
        cases hv : (shiftVals rows d cowid).isEmpty
        · simp only [Bool.false_eq_true, if_false]
          have hjoin : ∀ kws : List String, (∀ k ∈ kws, k.data ≠ [] ∧ ' ' ∉ k.data) →
              ((kws.any fun k => strContains (joinSp (shiftVals rows d cowid)) k) = true ↔
                ∃ k ∈ kws, ∃ v ∈ shiftVals rows d cowid, strContains v k = true) := by
            intro kws hkws
            rw [List.any_eq_true]
            constructor
            · rintro ⟨k, hk, hc⟩
              obtain ⟨hk1, hk2⟩ := hkws k hk
              exact ⟨k, hk, (strContains_joinSp k hk1 hk2 _).mp hc⟩
            · rintro ⟨k, hk, hvc⟩
              obtain ⟨hk1, hk2⟩ := hkws k hk
              exact ⟨k, hk, (strContains_joinSp k hk1 hk2 _).mpr hvc⟩
          cases hmorn : lower shiftName == "morning"
          · simp only [Bool.false_eq_true, if_false]
            rw [show shiftKeywords shiftName = eveningKeywords by
              unfold shiftKeywords; rw [hmorn]; rfl]
            exact hjoin eveningKeywords (by decide)
          · simp only [if_true]
            rw [show shiftKeywords shiftName = morningKeywords by
              unfold shiftKeywords; rw [hmorn]; rfl]
            exact hjoin morningKeywords (by decide)
        · rw [List.isEmpty_iff.mp hv]
          simp
      · rw [shiftVals_of_maskRows_eq_nil rows d cowid (List.isEmpty_iff.mp hm)]
        simp
    · have : rows = [] := List.isEmpty_iff.mp hrows
      subst this
      rw [shiftVals_of_maskRows_eq_nil [] d cowid rfl]
      simp
  have hmid : (∃ k ∈ shiftKeywords shiftName,
        ∃ v ∈ shiftVals rows d cowid, strContains v k = true) ↔
      (∃ r ∈ rows,
        (r.date == some d && strip (cellStr r.cowid) == strip cowid) = true ∧
        ∃ s, r.shift = some s ∧
          ∃ k ∈ shiftKeywords shiftName, strContains (strip (lower s)) k = true) := by
    constructor
    · rintro ⟨k, hk, v, hv, hc⟩
      unfold shiftVals at hv
      obtain ⟨s, hs, rfl⟩ := List.mem_map.mp hv
      obtain ⟨r, hrmask, hshift⟩ := List.mem_filterMap.mp hs
      have hrf := List.mem_filter.mp hrmask
      exact ⟨r, hrf.1, hrf.2, s, hshift, k, hk, hc⟩
    · rintro ⟨r, hr, hpred, s, hshift, k, hk, hc⟩
      refine ⟨k, hk, strip (lower s), ?_, hc⟩
      unfold shiftVals
      apply List.mem_map.mpr
      refine ⟨s, ?_, rfl⟩
      exact List.mem_filterMap.mpr ⟨r, List.mem_filter.mpr ⟨hr, hpred⟩, hshift⟩
  rw [Bool.eq_iff_iff]
  exact hlhs.trans (hmid.trans hspec.symm)

theorem mem_dateRange (a b d : Nat) : d ∈ dateRange a b ↔ a ≤ d ∧ d ≤ b := by
  simp only [dateRange, List.mem_map, List.mem_range]
  constructor
  · rintro ⟨i, hi, rfl⟩
    omega
  · rintro ⟨h1, h2⟩
    exact ⟨d - a, by omega, by omega⟩

theorem uniqueFirstAux_subset : ∀ (seen l : List String), uniqueFirstAux seen l ⊆ l
  | _, [] => by simp [uniqueFirstAux]
  | seen, x :: xs => by
    intro y hy
    simp only [uniqueFirstAux] at hy
    cases h : seen.contains x
    · rw [h] at hy
      simp only [Bool.false_eq_true, if_false] at hy
      rcases List.mem_cons.mp hy with rfl | hy
      · exact List.mem_cons_self _ _
      · exact List.mem_cons_of_mem _ (uniqueFirstAux_subset (x :: seen) xs hy)
    · rw [h] at hy
      simp only [if_true] at hy
      exact List.mem_cons_of_mem _ (uniqueFirstAux_subset seen xs hy)

theorem not_mem_uniqueFirstAux : ∀ (seen l : List String) (x : String),
    x ∈ seen → x ∉ uniqueFirstAux seen l
  | _, [], _, _ => by simp [uniqueFirstAux]
  | seen, y :: ys, x, hx => by
    simp only [uniqueFirstAux]
    cases h : seen.contains y
    · simp only [Bool.false_eq_true, if_false]
      intro hmem
      rcases List.mem_cons.mp hmem with rfl | hmem
      · rw [List.contains_eq_any_beq] at h
        have hany : seen.any (fun a => x == a) = true :=
          List.any_eq_true.mpr ⟨x, hx, beq_iff_eq.mpr rfl⟩
        rw [hany] at h
        exact Bool.true_eq_false.mp h
      · exact not_mem_uniqueFirstAux (y :: seen) ys x (List.mem_cons_of_mem _ hx) hmem
    · simp only [if_true]
      exact not_mem_uniqueFirstAux seen ys x hx

theorem uniqueFirstAux_nodup : ∀ (seen l : List String), (uniqueFirstAux seen l).Nodup
  | _, [] => by simp [uniqueFirstAux]
  | seen, y :: ys => by
    simp only [uniqueFirstAux]
    cases h : seen.contains y
    · simp only [Bool.false_eq_true, if_false]
      exact List.nodup_cons.mpr
        ⟨not_mem_uniqueFirstAux (y :: seen) ys y (List.mem_cons_self _ _),
         uniqueFirstAux_nodup (y :: seen) ys⟩
    · simp only [if_true]
      exact uniqueFirstAux_nodup seen ys

theorem uniqueFirst_subset (l : List String) : uniqueFirst l ⊆ l :=
  uniqueFirstAux_subset [] l

theorem uniqueFirst_nodup (l : List String) : (uniqueFirst l).Nodup :=
  uniqueFirstAux_nodup [] l

theorem cow_rows_ne_nil_of_mem (rows : List CowRow) (c : String) (h : c ∈ cow_ids rows) :
    (cow_rows rows c).isEmpty = false := by
  obtain ⟨x, hx, hsx⟩ := List.mem_map.mp (uniqueFirst_subset _ h)
  obtain ⟨r, hr, hrc⟩ := List.mem_filterMap.mp hx
  have hmem : r ∈ cow_rows rows c := by
    apply List.mem_filter.mpr
    refine ⟨hr, ?_⟩
    rw [hrc]
    show (strip x == strip c) = true
    apply beq_iff_eq.mpr
    rw [← hsx, strip_idem]
  rcases hcr : cow_rows rows c with _ | _
  · rw [hcr] at hmem
    simp at hmem
  · rfl

theorem pairwise_gapOrder_flatMap (f : Nat → List Gap) (a b : Nat)
    (hdate : ∀ d g, g ∈ f d → g.date = d)
    (hday : ∀ d, (f d).Pairwise gapOrder) :
    ((dateRange a b).flatMap f).Pairwise gapOrder := by
  rw [List.flatMap_def, List.pairwise_flatten]
  constructor
  · intro l' hl'
    obtain ⟨d, _, rfl⟩ := List.mem_map.mp hl'
    exact hday d
  · rw [List.pairwise_map]
    have hlt : (dateRange a b).Pairwise (· < ·) := by
      rw [dateRange, List.pairwise_map]
      refine (List.pairwise_lt_range _).imp ?_
      intro i j hij
      omega
    refine hlt.imp ?_
    intro d1 d2 h x hx y hy
    left
    rw [hdate d1 x hx, hdate d2 y hy]
    exact h

theorem pairwise_day_pair (g1 g2 : Gap) (c1 c2 : Bool) (h : gapOrder g1 g2) :
    ((if c1 then ([] : List Gap) else [g1]) ++
      (if c2 then ([] : List Gap) else [g2])).Pairwise gapOrder := by
  cases c1 <;> cases c2 <;> simp [List.pairwise_cons, h]

theorem mem_pair_date (d : Nat) (k1 k2 : String) (co : Option String) (c1 c2 : Bool) (g : Gap)
    (hg : g ∈ (if c1 then ([] : List Gap) else [⟨k1, co, d, "Morning"⟩]) ++
            (if c2 then ([] : List Gap) else [⟨k2, co, d, "Evening"⟩])) : g.date = d := by
  rcases List.mem_append.mp hg with h | h
  · cases c1
    · rw [List.mem_singleton.mp h]
    · simp at h
  · cases c2
    · rw [List.mem_singleton.mp h]
    · simp at h

theorem distGaps_pairwise (milk_m milk_e : List ChanRow) (dm de : Bool) (VS today : Nat) :
    (distGaps milk_m milk_e dm de VS today).Pairwise gapOrder := by
  unfold distGaps
  apply pairwise_gapOrder_flatMap
  · intro d g hg
    exact mem_pair_date d _ _ _ _ _ g hg
  · intro d
    exact pairwise_day_pair _ _ _ _ (Or.inr ⟨rfl, rfl, rfl⟩)

theorem fallbackGaps_pairwise (rows : List CowRow) (sc cc : Bool) (VS today : Nat) :
    (fallbackGaps rows sc cc VS today).Pairwise gapOrder := by
  unfold fallbackGaps
  apply pairwise_gapOrder_flatMap
  · intro d g hg
    exact mem_pair_date d _ _ _ _ _ g hg
  · intro d
    exact pairwise_day_pair _ _ _ _ (Or.inr ⟨rfl, rfl, rfl⟩)

theorem cowGaps_pairwise (rows : List CowRow) (dc sc : Bool) (VS today : Nat) (c : String) :
    (cowGaps rows dc sc VS today c).Pairwise gapOrder := by
  unfold cowGaps
  split
  · exact List.Pairwise.nil
  · split
    · exact List.Pairwise.nil
    · apply pairwise_gapOrder_flatMap
      · intro d g hg
        exact mem_pair_date d _ _ _ _ _ g hg
      · intro d
        exact pairwise_day_pair _ _ _ _ (Or.inr ⟨rfl, rfl, rfl⟩)

theorem mem_pair_fields (d : Nat) (k : String × Option String) (c1 c2 : Bool) (g : Gap)
    (hg : g ∈ (if c1 then ([] : List Gap) else [⟨k.1, k.2, d, "Morning"⟩]) ++
            (if c2 then ([] : List Gap) else [⟨k.1, k.2, d, "Evening"⟩])) :
    g.kind = k.1 ∧ g.cowid = k.2 := by
  rcases List.mem_append.mp hg with h | h
  · cases c1
    · rw [List.mem_singleton.mp h]
      exact ⟨rfl, rfl⟩
    · simp at h
  · cases c2
    · rw [List.mem_singleton.mp h]
      exact ⟨rfl, rfl⟩
    · simp at h

theorem mem_cowGaps_fields (rows : List CowRow) (dc sc : Bool) (VS today : Nat) (c : String)
    (g : Gap) (hg : g ∈ cowGaps rows dc sc VS today c) :
    g.kind = "milking" ∧ g.cowid = some c := by
  unfold cowGaps at hg
  split at hg
  · simp at hg
  · split at hg
    · simp at hg
    · obtain ⟨d, _, hgd⟩ := List.mem_flatMap.mp hg
      exact mem_pair_fields d ("milking", some c) _ _ g hgd

theorem mem_distGaps_fields (milk_m milk_e : List ChanRow) (dm de : Bool) (VS today : Nat)
    (g : Gap) (hg : g ∈ distGaps milk_m milk_e dm de VS today) :
    g.kind = "distribution" ∧ g.cowid = none := by
  unfold distGaps at hg
  obtain ⟨d, _, hgd⟩ := List.mem_flatMap.mp hg
  exact mem_pair_fields d ("distribution", none) _ _ g hgd

/-- Membership characterization of the per-cow gap list: a milking gap for a
given day and shift is emitted exactly when the day lies in the scanned
window and the presence check fails. -/
theorem mem_cowGaps_iff (rows : List CowRow) (sc : Bool) (VS today d : Nat) (c sn : String)
    (hne : (cow_rows rows c).isEmpty = false)
    (hsn : sn = "Morning" ∨ sn = "Evening") :
    ((⟨"milking", some c, d, sn⟩ : Gap) ∈ cowGaps rows true sc VS today c ↔
      (cow_start rows VS c ≤ d ∧ d ≤ today ∧
        has_shift_on_date_for_cow rows sc true d c sn = false)) := by
  unfold cowGaps
  rw [hne]
  simp only [Bool.not_true, Bool.or_false, Bool.false_eq_true, if_false]
  by_cases hlt : today < cow_start rows VS c
  · rw [if_pos hlt]
    constructor
    · intro h
      simp at h
    · rintro ⟨h1, h2, _⟩
      omega
  · rw [if_neg hlt]
    rw [List.mem_flatMap]
    constructor
    · rintro ⟨d2, hd2, hg⟩
      have hdd : d2 = d := (mem_pair_date d2 _ _ _ _ _ _ hg).symm
      subst hdd
      have hrange := (mem_dateRange _ _ _).mp hd2
      refine ⟨hrange.1, hrange.2, ?_⟩
      rcases hsn with rfl | rfl
      · rcases List.mem_append.mp hg with h | h
        · cases hA : has_shift_on_date_for_cow rows sc true d2 c "Morning"
          · rfl
          · rw [hA] at h
            simp at h
        · cases hB : has_shift_on_date_for_cow rows sc true d2 c "Evening"
          · rw [hB] at h
            have hcon := congrArg Gap.shift (List.mem_singleton.mp h)
            simp at hcon
          · rw [hB] at h
            simp at h
      · rcases List.mem_append.mp hg with h | h
        · cases hA : has_shift_on_date_for_cow rows sc true d2 c "Morning"
          · rw [hA] at h
            have hcon := congrArg Gap.shift (List.mem_singleton.mp h)
            simp at hcon
          · rw [hA] at h
            simp at h
        · cases hB : has_shift_on_date_for_cow rows sc true d2 c "Evening"
          · rfl
          · rw [hB] at h
            simp at h
    · rintro ⟨h1, h2, hfalse⟩
      refine ⟨d, (mem_dateRange _ _ _).mpr ⟨h1, h2⟩, ?_⟩
      rcases hsn with rfl | rfl
      · apply List.mem_append.mpr
        left
        rw [hfalse]
        simp
      · apply List.mem_append.mpr
        right
        rw [hfalse]
        simp

/-! ## Concrete inputs used by the claim theorems -/

/-- Scenario A entity log: the single row C1 / 2025-11-01 / Morning. -/
def scenarioA_log : List CowRow := [⟨some (dayNum 2025 11 1), some "C1", some "Morning"⟩]

/-- Scenario C style production input: one row of 100 units. -/
def prodC2 : List ProdRow := [⟨some ⟨2025, 11, 3⟩, some 100⟩]

/-- Scenario C style distribution input: one morning row totalling 120. -/
def distC2 : List DistRow := [⟨some ⟨2025, 11, 3⟩, [("Date", none), ("CustomerA", some 120)]⟩]

/-- A cow-log row dated before VALIDATION_START. -/
def c3_oct_row : ProdRow := ⟨some ⟨2025, 10, 15⟩, some 5⟩

/-- A cow-log row of November of the previous year. -/
def c3_nov2024_row : ProdRow := ⟨some ⟨2024, 11, 1⟩, some 7⟩

/-- An investment row whose paid-to cell differs from the party only by
letter case. -/
def c4_lower_inv : List LedgerRow := [⟨some "bipin kumar", some 500⟩]

/-- Scenario D ledgers. -/
def c4_inv : List LedgerRow := [⟨some "Bipin Kumar", some 500⟩]

/-- Scenario D payment ledger. -/
def c4_pay : List LedgerRow := [⟨some "Bipin Kumar", some 200⟩]

/-- Scenario D expense ledger. -/
def c4_exp : List LedgerRow := [⟨some "Bipin Kumar", some 100⟩]

/-- A cow log fully satisfied on days 0 and 1 (the shift text contains both
an am and a pm keyword), so only channel gaps are emitted. -/
def c5_log : List CowRow :=
  [⟨some 0, some "C1", some "am pm"⟩, ⟨some 1, some "C1", some "am pm"⟩]

/-- A cow log with two ids differing only in letter case. -/
def c7_log : List CowRow :=
  [⟨some 0, some "C1", some "Morning"⟩, ⟨some 0, some "c1", some "Morning"⟩]

/-- A single-row cow log for the Latest Summary crash. -/
def c8_row : ProdRow := ⟨some ⟨2025, 11, 5⟩, some 4⟩

/-- A cow log with a row on day 0 but no usable cow-id cell. -/
def c9_log : List CowRow := [⟨some 0, none, some "morning"⟩]

/-- A cow log whose only row has an unparseable date. -/
def c10_log : List CowRow := [⟨none, some "B1", some "x"⟩]

/-! ## Claim theorems -/

/-- C1: for each distinct entity of the log the audit scans from
entityStart = max(VALIDATION_START, first recorded date); an entity whose
start is after today contributes no gaps; otherwise a Morning (resp.
Evening) gap for a day d is emitted iff no row with matching entity and
date d has a shift value containing a recognized keyword of that shift; and
on the Scenario A log over the window 2025-11-01 to 2025-11-02 the emitted
gaps are exactly (C1, 2025-11-01, Evening), (C1, 2025-11-02, Morning),
(C1, 2025-11-02, Evening). -/
theorem C1_entity_shift_gap_scan (rows : List CowRow) (VS today d : Nat)
    (cowid shiftName : String)
    (hmem : cowid ∈ cow_ids rows)
    (hshift : shiftName = "Morning" ∨ shiftName = "Evening") :
    (∀ f, minDate ((cow_rows rows cowid).filterMap (fun r => r.date)) = some f →
        cow_start rows VS cowid = max VS f) ∧
    (today < cow_start rows VS cowid → cowGaps rows true true VS today cowid = []) ∧
    ((⟨"milking", some cowid, d, shiftName⟩ : Gap) ∈ cowGaps rows true true VS today cowid ↔
      (cow_start rows VS cowid ≤ d ∧ d ≤ today ∧
        specSatisfied rows d cowid shiftName = false)) ∧
    missing_cards scenarioA_log true true true
        [⟨some (dayNum 2025 11 1)⟩, ⟨some (dayNum 2025 11 2)⟩]
        [⟨some (dayNum 2025 11 1)⟩, ⟨some (dayNum 2025 11 2)⟩] true true
        (dayNum 2025 11 1) (dayNum 2025 11 2) =
      [⟨"milking", some "C1", dayNum 2025 11 1, "Evening"⟩,
       ⟨"milking", some "C1", dayNum 2025 11 2, "Morning"⟩,
       ⟨"milking", some "C1", dayNum 2025 11 2, "Evening"⟩] := by
  have hne := cow_rows_ne_nil_of_mem rows cowid hmem
  refine ⟨?_, ?_, ?_, by decide⟩
  · intro f hf
    unfold cow_start
    rw [hf]
  · intro hlt
    unfold cowGaps
    rw [hne]
    simp only [Bool.not_true, Bool.or_false, Bool.false_eq_true, if_false]
    rw [if_pos hlt]
  · have hiff := mem_cowGaps_iff rows true VS today d cowid shiftName hne hshift
    rw [has_shift_eq_spec] at hiff
    exact hiff

/-- Witness for C1 at the Scenario A input, day 2025-11-02, shift Morning. -/
theorem C1_entity_shift_gap_scan_witness :
    ("C1" ∈ cow_ids scenarioA_log ∧
      (("Morning" : String) = "Morning" ∨ ("Morning" : String) = "Evening")) ∧
    ((⟨"milking", some "C1", dayNum 2025 11 2, "Morning"⟩ : Gap) ∈
        cowGaps scenarioA_log true true (dayNum 2025 11 1) (dayNum 2025 11 2) "C1" ↔
      (cow_start scenarioA_log (dayNum 2025 11 1) "C1" ≤ dayNum 2025 11 2 ∧
        dayNum 2025 11 2 ≤ dayNum 2025 11 2 ∧
        specSatisfied scenarioA_log (dayNum 2025 11 2) "C1" "Morning" = false)) :=
  ⟨⟨by decide, Or.inl rfl⟩,
   (C1_entity_shift_gap_scan scenarioA_log (dayNum 2025 11 1) (dayNum 2025 11 2)
      (dayNum 2025 11 2) "C1" "Morning" (by decide) (Or.inl rfl)).2.2.1⟩

/-- C2: for both the lifetime and the current-month window, the remaining
metric is the exact signed difference of produced and distributed and is
never clamped: the Scenario C instance with produced 100 and distributed 120
yields the negative value -20, reported as-is. -/
theorem C2_remaining_unclamped :
    (∀ (milkCol : Bool) (raw : List ProdRow) (mRaw eRaw : List DistRow),
      dash_remaining_milk milkCol raw mRaw eRaw =
        dash_total_milk_produced milkCol raw - dash_total_milk_distributed mRaw eRaw) ∧
    (∀ (milkCol : Bool) (raw : List ProdRow) (mRaw eRaw : List DistRow) (todayMonth : Nat),
      dash_remaining_milk_month milkCol raw mRaw eRaw todayMonth =
        dash_milk_month milkCol raw todayMonth -
          dash_milk_distributed_month mRaw eRaw todayMonth) ∧
    dash_total_milk_produced true prodC2 = 100 ∧
    dash_total_milk_distributed distC2 [] = 120 ∧
    dash_remaining_milk true prodC2 distC2 [] = -20 ∧
    ((-20 : Rat) < 0 ∧ (-20 : Rat) ≠ 0) := by
  have h1 : dash_total_milk_produced true prodC2 = 100 := by
    simp [dash_total_milk_produced, total_milk_produced, dropUnparsedProd, prodC2,
      List.filter_cons]
  have h2 : dash_total_milk_distributed distC2 [] = 120 := by
    simp [dash_total_milk_distributed, sum_numeric_columns, dropUnparsedDist, distC2,
      List.filter_cons]
  refine ⟨fun _ _ _ _ => rfl, fun _ _ _ _ _ => rfl, h1, h2, ?_, by norm_num⟩
  unfold dash_remaining_milk
  rw [h1, h2]
  norm_num

/-- C3 (code bug): the dashboard violates its window bounds — a cow-log row
dated 2025-10-15 (before VALIDATION_START) still contributes to the lifetime
sum because the start-date filter of lines 136-140 is lost, and a row of
November 2024 contributes to the November 2025 month sum because
filter_month compares only the month number; only the exclusion of
unparseable dates holds. -/
theorem C3_window_bounds_violated :
    dash_total_milk_produced true [c3_oct_row] = 5 ∧
    (⟨2025, 10, 15⟩ : CalDate).num < START_DATE.num ∧
    dash_milk_month true [c3_nov2024_row] 11 = 7 ∧
    ((2024 : Nat) ≠ 2025) ∧
    dash_total_milk_produced true [⟨none, some 9⟩] = 0 := by
  refine ⟨?_, by decide, ?_, by decide, ?_⟩
  · simp [dash_total_milk_produced, total_milk_produced, dropUnparsedProd, c3_oct_row,
      List.filter_cons]
  · simp [dash_milk_month, total_milk_produced, dropUnparsedProd, filter_month,
      c3_nov2024_row, List.filter_cons]
  · simp [dash_total_milk_produced, total_milk_produced, dropUnparsedProd, List.filter_cons]

/-- Counterexample to C4 as stated: matching is not case-insensitive
substring containment — an investment whose paid-to cell is the lowercase
variant of the party name contributes 0 in the code, while the claimed
matching rule would contribute 500. -/
theorem C4_substring_matching_refuted :
    fund_bipin true true true c4_lower_inv [] [] = 0 ∧
    specFund c4_lower_inv [] [] "Bipin Kumar" = 500 ∧
    specPartyMatches (some "bipin kumar") "Bipin Kumar" = true ∧
    ((0 : Rat) ≠ 500) := by
  refine ⟨?_, ?_, by decide, by norm_num⟩
  · simp [fund_bipin, investment_bipin, received_bipin, expense_bipin, c4_lower_inv,
      List.filter_cons]
  · simp [specFund, specPartyMatches, c4_lower_inv, List.filter_cons,
      show strContains (lower (strip "bipin kumar")) (lower "Bipin Kumar") = true from
        by decide]

/-- C4 (amended): fund equals the sum of investment amounts whose paid-to
cell equals the party exactly, plus exactly matched payments, minus exactly
matched expenses; an absent matching column yields 0 for that term; the
Scenario D instance evaluates to 600. -/
theorem C4_exact_match_fund :
    (∀ (pc rc ec : Bool) (inv pay expn : List LedgerRow),
      fund_bipin pc rc ec inv pay expn =
        (if pc then exactPartySum inv "Bipin Kumar" else 0) +
        (if rc then exactPartySum pay "Bipin Kumar" else 0) -
        (if ec then exactPartySum expn "Bipin Kumar" else 0)) ∧
    fund_bipin true true true c4_inv c4_pay c4_exp = 600 := by
  have hterm : ∀ (b : Bool) (l : List LedgerRow),
      (if b then ((l.filter (fun r => r.party == some "Bipin Kumar")).map
        (fun r => r.amount.getD 0)).sum else 0) =
      (if b then exactPartySum l "Bipin Kumar" else 0) := by
    intro b l
    cases b
    · rfl
    · show ((l.filter (fun r => r.party == some "Bipin Kumar")).map
        (fun r => r.amount.getD 0)).sum = exactPartySum l "Bipin Kumar"
      unfold exactPartySum
      exact sum_filter_map_eq _ _ l
  constructor
  · intro pc rc ec inv pay expn
    unfold fund_bipin investment_bipin received_bipin expense_bipin
    rw [hterm, hterm, hterm]
  · have hv : ∀ a : Rat, [a].sum = a := by
      intro a
      simp
    unfold fund_bipin investment_bipin received_bipin expense_bipin
    rw [show c4_inv.filter (fun r => r.party == some "Bipin Kumar") = c4_inv from by decide,
      show c4_pay.filter (fun r => r.party == some "Bipin Kumar") = c4_pay from by decide,
      show c4_exp.filter (fun r => r.party == some "Bipin Kumar") = c4_exp from by decide]
    simp only [if_true, c4_inv, c4_pay, c4_exp, List.map_cons, List.map_nil]
    norm_num [hv]

/-- Counterexample to C5 as stated: the channel-day gaps are not grouped one
channel after the other — with both channels empty over a two-day window the
code emits Morning 0, Evening 0, Morning 1, Evening 1, not the claimed
Morning 0, Morning 1, Evening 0, Evening 1. -/
theorem C5_channel_order_refuted :
    missing_cards c5_log true true true [] [] true true 0 1 =
      [⟨"distribution", none, 0, "Morning"⟩, ⟨"distribution", none, 0, "Evening"⟩,
       ⟨"distribution", none, 1, "Morning"⟩, ⟨"distribution", none, 1, "Evening"⟩] ∧
    missing_cards c5_log true true true [] [] true true 0 1 ≠
      [⟨"distribution", none, 0, "Morning"⟩, ⟨"distribution", none, 1, "Morning"⟩,
       ⟨"distribution", none, 0, "Evening"⟩, ⟨"distribution", none, 1, "Evening"⟩] :=
  ⟨by decide, by decide⟩

/-- C5 (amended): the emitted sequence is all entity-shift gaps first
(grouped by entity in first-encounter order with no duplicate entity, within
an entity ascending by date with Morning before Evening), followed by all
channel-day gaps; the channel-day gaps are ordered ascending by date with
the morning channel before the evening channel on each day (interleaved by
day, not one channel fully before the other). -/
theorem C5_gap_ordering (cow_log : List CowRow) (dc sc cc : Bool)
    (milk_m milk_e : List ChanRow) (dm de : Bool) (VS today : Nat) :
    missing_cards cow_log dc sc cc milk_m milk_e dm de VS today =
      (if cc && !cow_log.isEmpty then
        (cow_ids cow_log).flatMap (cowGaps cow_log dc sc VS today)
      else fallbackGaps cow_log sc cc VS today)
      ++ distGaps milk_m milk_e dm de VS today ∧
    (distGaps milk_m milk_e dm de VS today).Pairwise gapOrder ∧
    (∀ c, (cowGaps cow_log dc sc VS today c).Pairwise gapOrder) ∧
    (fallbackGaps cow_log sc cc VS today).Pairwise gapOrder ∧
    (∀ c g, g ∈ cowGaps cow_log dc sc VS today c → g.kind = "milking" ∧ g.cowid = some c) ∧
    (∀ g, g ∈ distGaps milk_m milk_e dm de VS today →
      g.kind = "distribution" ∧ g.cowid = none) ∧
    (cow_ids cow_log).Nodup :=
  ⟨rfl, distGaps_pairwise _ _ _ _ _ _, fun c => cowGaps_pairwise _ _ _ _ _ c,
   fallbackGaps_pairwise _ _ _ _ _,
   fun c g hg => mem_cowGaps_fields _ _ _ _ _ c g hg,
   fun g hg => mem_distGaps_fields _ _ _ _ _ _ g hg,
   uniqueFirst_nodup _⟩

/-- C6: sum_numeric_columns equals the exact arithmetic sum of the
successfully coerced cells of the non-excluded columns, non-numeric cells
contributing 0, with 0 for an empty dataset; the Scenario B row sums to 8
with the date column excluded. -/
theorem C6_sum_numeric_exact :
    (∀ (rows : List NumRow) (X : List String),
      sum_numeric_columns rows X = specSumAllNumeric rows X) ∧
    sum_numeric_columns [[("date", none), ("CustomerA", some 5), ("CustomerB", some 3)]]
      ["date"] = 8 := by
  constructor
  · intro rows X
    have hcell : (fun (cv : String × Option Rat) =>
          if (!X.contains cv.1) = true then cv.2.getD 0 else 0)
        = (fun (cv : String × Option Rat) =>
          if X.contains cv.1 = true then (0 : Rat) else cv.2.getD 0) := by
      funext cv
      cases h : X.contains cv.1 <;> simp [h]
    have hFG : (fun (rr : NumRow) =>
          ((rr.filter (fun cv => !X.contains cv.1)).map (fun cv => cv.2.getD 0)).sum)
        = (fun (rr : NumRow) =>
          (rr.map (fun cv => if X.contains cv.1 = true then (0 : Rat) else cv.2.getD 0)).sum) := by
      funext rr
      rw [sum_filter_map_eq, hcell]
    rcases rows with _ | ⟨r, rs⟩
    · simp [sum_numeric_columns, specSumAllNumeric]
    · unfold sum_numeric_columns specSumAllNumeric
      rw [if_neg (by simp)]
      rw [hFG]
  · simp [sum_numeric_columns, List.filter_cons]
    norm_num

/-- Counterexample to C7 as stated: two cow ids differing only in letter
case are collected as two distinct entities and audited separately. -/
theorem C7_case_insensitive_refuted :
    cow_ids c7_log = ["C1", "c1"] ∧
    ("C1" : String) ≠ "c1" ∧
    missing_cards c7_log true true true [⟨some 0⟩] [⟨some 0⟩] true true 0 0 =
      [⟨"milking", some "C1", 0, "Evening"⟩, ⟨"milking", some "c1", 0, "Evening"⟩] :=
  ⟨by decide, by decide, by decide⟩

/-- C7 (amended): entity identity comparison is whitespace-trimmed but
case-sensitive — the presence check and the per-cow row selection depend
only on the trimmed id, and every collected id is already trimmed, while
ids differing in letter case stay distinct. -/
theorem C7_trimmed_case_sensitive (rows : List CowRow) (u v : String)
    (h : strip u = strip v) (sc cc : Bool) (d VS : Nat) (sn : String) :
    has_shift_on_date_for_cow rows sc cc d u sn = has_shift_on_date_for_cow rows sc cc d v sn ∧
    cow_rows rows u = cow_rows rows v ∧
    cow_start rows VS u = cow_start rows VS v ∧
    (∀ c ∈ cow_ids rows, strip c = c) := by
  have hmask : ∀ dd, maskRows rows dd u = maskRows rows dd v := by
    intro dd
    unfold maskRows
    rw [h]
  have hvals : ∀ dd, shiftVals rows dd u = shiftVals rows dd v := by
    intro dd
    unfold shiftVals
    rw [hmask]
  refine ⟨?_, ?_, ?_, ?_⟩
  · unfold has_shift_on_date_for_cow
    rw [hmask, hvals]
  · unfold cow_rows
    rw [h]
  · unfold cow_start cow_rows
    rw [h]
  · intro c hc
    obtain ⟨x, _, hx⟩ := List.mem_map.mp (uniqueFirst_subset _ hc)
    rw [← hx, strip_idem]

/-- Witness for C7 (amended): a padded and an unpadded id are scanned
identically. -/
theorem C7_trimmed_case_sensitive_witness :
    strip " C1 " = strip "C1" ∧
    has_shift_on_date_for_cow c7_log true true 0 " C1 " "Morning" =
      has_shift_on_date_for_cow c7_log true true 0 "C1" "Morning" :=
  ⟨by decide,
   (C7_trimmed_case_sensitive c7_log " C1 " "C1" (by decide) true true 0 0 "Morning").1⟩

/-- C8 (code bug): with fewer than two cow-log rows the Latest Summary block
aborts at the second positional read latest_prod_2 = df_sorted_prod.iloc[1]
instead of degrading to zero-filled results. -/
theorem C8_latest_summary_crash :
    latest_two_prod [c8_row] = Except.error "single positional indexer is out-of-bounds" ∧
    latest_two_prod [] = Except.error "single positional indexer is out-of-bounds" :=
  ⟨rfl, rfl⟩

/-- Counterexample to C9 as stated: the fallback is not a date-only presence
check — with a log row present on day 0 (whose shift text even contains a
morning keyword) the fallback still emits both gaps for day 0, because the
unresolved cow-id column makes the presence check return False. -/
theorem C9_fallback_presence_refuted :
    (c9_log.any (fun r => r.date == some 0) = true) ∧
    missing_cards c9_log true true false [⟨some 0⟩] [⟨some 0⟩] true true 0 0 =
      [⟨"milking", some "", 0, "Morning"⟩, ⟨"milking", some "", 0, "Evening"⟩] :=
  ⟨by decide, by decide⟩

/-- C9 (amended): when the entity column is unresolved or the log is empty,
the fallback emits exactly one Morning and one Evening gap for every day of
the window unconditionally (its presence check always fails), followed by
the usual channel-day gaps. -/
theorem C9_fallback_unconditional (rows : List CowRow) (dc sc cc : Bool)
    (milk_m milk_e : List ChanRow) (dm de : Bool) (VS today : Nat)
    (h : cc = false ∨ rows = []) :
    missing_cards rows dc sc cc milk_m milk_e dm de VS today =
      (dateRange VS today).flatMap (fun d =>
        [⟨"milking", some "", d, "Morning"⟩, ⟨"milking", some "", d, "Evening"⟩]) ++
      distGaps milk_m milk_e dm de VS today := by
  have hsf : ∀ d cw sn, has_shift_on_date_for_cow rows sc cc d cw sn = false := by
    intro d cw sn
    unfold has_shift_on_date_for_cow
    rcases h with rfl | rfl
    · simp
    · simp
  have hcond : (cc && !List.isEmpty rows) = false := by
    rcases h with rfl | rfl
    · rfl
    · simp
  unfold missing_cards fallbackGaps
  rw [hcond]
  simp only [Bool.false_eq_true, if_false, hsf]
  rfl

/-- Witness for C9 (amended) at a concrete one-day window. -/
theorem C9_fallback_unconditional_witness :
    ((false : Bool) = false ∨ c9_log = []) ∧
    missing_cards c9_log true true false [⟨some 0⟩] [⟨some 0⟩] true true 0 0 =
      (dateRange 0 0).flatMap (fun d =>
        [⟨"milking", some "", d, "Morning"⟩, ⟨"milking", some "", d, "Evening"⟩]) ++
      distGaps [⟨some 0⟩] [⟨some 0⟩] true true 0 0 :=
  ⟨Or.inl rfl,
   C9_fallback_unconditional c9_log true true false [⟨some 0⟩] [⟨some 0⟩] true true 0 0
     (Or.inl rfl)⟩

/-- C10: an entity appearing in the log whose rows all have unparseable
dates is still scanned — its start resolves to VALIDATION_START (pandas
max with NaT), and since a NaT row never satisfies a presence check, both a
Morning and an Evening gap are emitted for every day of the window. -/
theorem C10_unparseable_dates_full_scan (rows : List CowRow) (sc : Bool)
    (VS today : Nat) (cowid : String)
    (hVS : VS ≤ today) (hmem : cowid ∈ cow_ids rows)
    (hdates : ∀ r ∈ rows, strip (cellStr r.cowid) = strip cowid → r.date = none) :
    cow_start rows VS cowid = VS ∧
    cowGaps rows true sc VS today cowid =
      (dateRange VS today).flatMap (fun d =>
        [⟨"milking", some cowid, d, "Morning"⟩, ⟨"milking", some cowid, d, "Evening"⟩]) := by
  have hne := cow_rows_ne_nil_of_mem rows cowid hmem
  have hdnil : (cow_rows rows cowid).filterMap (fun r => r.date) = [] := by
    apply List.filterMap_eq_nil_iff.mpr
    intro r hr
    have hm := List.mem_filter.mp hr
    exact hdates r hm.1 (beq_iff_eq.mp hm.2)
  have hcs : cow_start rows VS cowid = VS := by
    unfold cow_start
    rw [hdnil]
    rfl
  refine ⟨hcs, ?_⟩
  have hmask : ∀ dd, maskRows rows dd cowid = [] := by
    intro dd
    apply List.filter_eq_nil_iff.mpr
    intro r hr
    cases hbeq : (strip (cellStr r.cowid) == strip cowid)
    · simp [hbeq]
    · have hdn := hdates r hr (beq_iff_eq.mp hbeq)
      simp [hdn, hbeq]
  have hsf : ∀ dd sn, has_shift_on_date_for_cow rows sc true dd cowid sn = false := by
    intro dd sn
    unfold has_shift_on_date_for_cow
    rw [hmask dd]
    simp
  unfold cowGaps
  rw [hne, hcs]
  simp only [Bool.not_true, Bool.or_false, Bool.false_eq_true, if_false]
  rw [if_neg (by omega)]
  simp only [hsf, Bool.false_eq_true, if_false]
  rfl

/-- Witness for C10: one cow, all dates unparseable, two-day window, four
gaps. -/
theorem C10_unparseable_dates_full_scan_witness :
    ((0 : Nat) ≤ 1 ∧ "B1" ∈ cow_ids c10_log ∧
      (∀ r ∈ c10_log, strip (cellStr r.cowid) = strip "B1" → r.date = none)) ∧
    cowGaps c10_log true true 0 1 "B1" =
      [⟨"milking", some "B1", 0, "Morning"⟩, ⟨"milking", some "B1", 0, "Evening"⟩,
       ⟨"milking", some "B1", 1, "Morning"⟩, ⟨"milking", some "B1", 1, "Evening"⟩] :=
  ⟨⟨by decide, by decide, by decide⟩,
   ((C10_unparseable_dates_full_scan c10_log true 0 1 "B1" (by decide) (by decide)
      (by decide)).2).trans (by decide)⟩

end Dairy
